import Mathlib

/-!
Verification of the XML invoice-processing pipeline of this repository
(ZIP → XML → invoice locator → tax extraction → consolidation →
classification → output rows).

The repository contains two parallel implementations of the pipeline:
the monolithic `app.py` at the repository root and the refactored
`src/utils/xml_processor.py` (class `XMLProcessor`).  Both are embedded
here where the claims touch them: namespace `XmlProc` models the
`XMLProcessor` methods, namespace `App` models the root `app.py`
functions.

Modelling conventions:
* monetary values (Python `float`) are idealised as exact rationals `ℚ`;
  the `f"{x:.2f}"` presentation rounding the source applies to the
  consolidated sums when it converts them to strings is modelled by
  `fmt2` (round half to even at two decimals) and is presentation-only;
* a Python numeric string together with the outcome of `float(...)` on it
  is modelled as `Option ℚ` (`none` = `ValueError`);
* `lxml` element trees are modelled by the mutual inductive `XTree` /
  `XForest`; tags carry the `\x7bnamespace-urn\x7dLocalName` form `lxml`
  uses, so the source's substring / `endswith` / `split` operations on
  `tag` apply verbatim;
* Python dictionary keys that may be absent are `Option` fields, and
  `dict.get(k, default)` is `Option.getD`.
-/

/-! ## Python-style string primitives -/

/-- Substring test, Python's `pat in s`. -/
def strContains (s pat : String) : Bool :=
  (List.range (s.data.length + 1)).any (fun i => pat.data.isPrefixOf (s.data.drop i))

/-- Python `s.find(pat)`: least index whose suffix starts with `pat`, `-1` if none. -/
def pyFind (s pat : String) : Int :=
  match (List.range (s.data.length + 1)).find? (fun i => pat.data.isPrefixOf (s.data.drop i)) with
  | some i => Int.ofNat i
  | none => -1

/-- Python `s.rfind(pat)`: greatest index whose suffix starts with `pat`, `-1` if none. -/
def pyRfind (s pat : String) : Int :=
  match ((List.range (s.data.length + 1)).reverse).find?
      (fun i => pat.data.isPrefixOf (s.data.drop i)) with
  | some i => Int.ofNat i
  | none => -1

/-- Python slice `s[i:j]` for nonnegative bounds (the only case the source reaches:
its slice bounds come from `find` results already known to be nonnegative). -/
def pySlice (s : String) (i j : Int) : String :=
  String.mk ((s.data.take j.toNat).drop i.toNat)

/-- Python `s.lower()` restricted to ASCII, which covers the `.xml` extension test. -/
def pyLower (s : String) : String :=
  String.mk (s.data.map Char.toLower)

/-- Python `s.endswith(pat)`. -/
def pyEndsWith (s pat : String) : Bool :=
  pat.data.isSuffixOf s.data

/-- Python `s[-n:]` for `n > 0`: the last `n` characters (whole string when shorter). -/
def pyTakeLast (n : Nat) (s : String) : String :=
  String.mk (s.data.drop (s.data.length - n))

/-- Value of a digit string (used by the `float(...)` model). -/
def digitsToNat (l : List Char) : Nat :=
  l.foldl (fun n c => n * 10 + (c.toNat - 48)) 0

/-- Model of Python `float(s)` restricted to the decimal forms the pipeline's
UBL amount/percent strings take: optional sign, integer digits, optional
fractional part, at least one digit overall.  Exponent notation, `inf`/`nan`
and surrounding whitespace — never produced by the data this pipeline reads —
are mapped to `none` like any other unparseable string. -/
def pyFloatCore (l : List Char) : Option ℚ :=
  let intPart := l.takeWhile Char.isDigit
  let rest := l.dropWhile Char.isDigit
  match rest with
  | [] => if intPart.isEmpty then none else some ((digitsToNat intPart : ℚ))
  | '.' :: frac =>
    if frac.all Char.isDigit && !(intPart.isEmpty && frac.isEmpty) then
      some ((digitsToNat intPart : ℚ) + (digitsToNat frac : ℚ) / ((10 : ℚ) ^ frac.length))
    else none
  | _ => none

/-- Model of Python `float(s)`; `none` models a raised `ValueError`. -/
def pyFloat (s : String) : Option ℚ :=
  match s.data with
  | [] => none
  | c :: rest =>
    if c = '-' then (pyFloatCore rest).map (fun q => -q)
    else if c = '+' then pyFloatCore rest
    else pyFloatCore (c :: rest)

/-- Round half to even to an integer (the rounding of Python's `round` and
`format`, idealised to exact rationals). -/
def rndHalfEven (q : ℚ) : ℤ :=
  let f := ⌊q⌋
  let r := q - (f : ℚ)
  if r < 1/2 then f
  else if (1:ℚ)/2 < r then f + 1
  else if f % 2 = 0 then f else f + 1

/-- Python `round(q, 2)` idealised to rationals. -/
def round2 (q : ℚ) : ℚ :=
  ((rndHalfEven (q * 100) : ℚ)) / 100

/-- Two-digit decimal rendering helper for `fmt2`. -/
def twoDigits (n : Nat) : String :=
  if n < 10 then ("0") ++ Nat.repr n else Nat.repr n

/-- Python `f"\x7bq:.2f\x7d"` idealised to rationals. -/
def fmt2 (q : ℚ) : String :=
  let n := rndHalfEven (q * 100)
  (if n < 0 then ("-") else ("")) ++ Nat.repr (n.natAbs / 100) ++ (".") ++ twoDigits (n.natAbs % 100)

/-! ## Code-point lexicographic string order

Python compares strings (and tuples of strings, as in
`result.sort(key=lambda x: (x['TaxSchemeName'], x['Percent']))`) by Unicode
code points; `lexLtB` / `lexLeB` are that order on the underlying character
lists. -/

/-- Strict code-point lexicographic order on character lists. -/
def lexLtB : List Char → List Char → Bool
  | [], [] => false
  | [], _ :: _ => true
  | _ :: _, [] => false
  | c :: cs, d :: ds =>
    if c.toNat < d.toNat then true
    else if d.toNat < c.toNat then false
    else lexLtB cs ds

/-- Reflexive code-point lexicographic order on character lists. -/
def lexLeB : List Char → List Char → Bool
  | [], _ => true
  | _ :: _, [] => false
  | c :: cs, d :: ds =>
    if c.toNat < d.toNat then true
    else if d.toNat < c.toNat then false
    else lexLeB cs ds

/-- Strict Python string order. -/
def strLt (a b : String) : Bool := lexLtB a.data b.data

/-- Reflexive Python string order. -/
def strLe (a b : String) : Bool := lexLeB a.data b.data

/-! ## The `lxml` element-tree model -/

mutual
/-- One `lxml` element: qualified tag (`\x7burn\x7dLocalName`), optional text, children. -/
inductive XTree where
  | node (tag : String) (text : Option String) (children : XForest)

/-- A list of sibling elements (mutual with `XTree` so that all tree
traversals are structurally recursive and kernel-computable). -/
inductive XForest where
  | nil
  | cons (t : XTree) (ts : XForest)
end

/-- Build a forest from a list of trees. -/
def xf : List XTree → XForest
  | [] => .nil
  | t :: ts => .cons t (xf ts)

/-- Tag accessor. -/
def XTree.tag : XTree → String
  | .node t _ _ => t

/-- Text accessor (`elem.text`; `none` models Python `None`). -/
def XTree.text : XTree → Option String
  | .node _ tx _ => tx

/-- Children accessor. -/
def XTree.children : XTree → XForest
  | .node _ _ cs => cs

mutual
/-- All elements of the subtree rooted at `t` (itself first), with the list of
ancestors of each (nearest first) prefixed by `anc`; document order. -/
def XTree.descAnc : XTree → List XTree → List (XTree × List XTree)
  | .node tg tx cs, anc =>
    (XTree.node tg tx cs, anc) :: XForest.descAnc cs (XTree.node tg tx cs :: anc)

/-- Forest version of `XTree.descAnc`. -/
def XForest.descAnc : XForest → List XTree → List (XTree × List XTree)
  | .nil, _ => []
  | .cons t ts, anc => XTree.descAnc t anc ++ XForest.descAnc ts anc
end

/-- `root.findall('.//tag')` keeping each match's ancestor chain (nearest
ancestor first; the chain ends with `root`).  Matches are proper descendants
of `root`, in document order — the behaviour of `lxml`'s `.//` search. -/
def XTree.findallAnc (root : XTree) (tg : String) : List (XTree × List XTree) :=
  (XForest.descAnc root.children [root]).filter (fun p => p.1.tag = tg)

/-- `e.findall('.//tag')` (proper descendants of `e`, document order). -/
def XTree.findall (e : XTree) (tg : String) : List XTree :=
  ((XForest.descAnc e.children [e]).map Prod.fst).filter (fun d => d.tag = tg)

/-- `e.find('.//tag')` (first match in document order, `None` if absent). -/
def XTree.find1 (e : XTree) (tg : String) : Option XTree :=
  (e.findall tg).head?

/-- `root.iter()`: the element itself followed by all its descendants. -/
def XTree.iterAll (root : XTree) : List XTree :=
  (root.descAnc []).map Prod.fst

/-- `elem.text or default`: Python's `or` takes the default both for `None`
and for the empty (falsy) string. -/
def textOrD (d : String) (e : XTree) : String :=
  match e.text with
  | none => d
  | some s => if s = ("") then d else s

/-- The `lxml` qualified-tag prefix for the UBL aggregate-components namespace. -/
def nsCac : String := "\x7burn:oasis:names:specification:ubl:schema:xsd:CommonAggregateComponents-2\x7d"

/-- The `lxml` qualified-tag prefix for the UBL basic-components namespace. -/
def nsCbc : String := "\x7burn:oasis:names:specification:ubl:schema:xsd:CommonBasicComponents-2\x7d"

/-- Qualified tag for a `cac:` element. -/
def cacQ (s : String) : String := nsCac ++ s

/-- Qualified tag for a `cbc:` element. -/
def cbcQ (s : String) : String := nsCbc ++ s

/-- Local name of a qualified tag: Python `tag.split('\x7d')[-1] if '\x7d' in tag else tag`. -/
def localName (tg : String) : String :=
  match pyRfind tg ("\x7d") with
  | Int.ofNat i => pySlice tg (Int.ofNat (i + 1)) (Int.ofNat tg.data.length)
  | _ => tg

/-! ## `src/utils/xml_processor.py` — class `XMLProcessor` -/

/-- One record appended to `tax_information` by
`XMLProcessor.extract_tax_information`.  `TaxSchemeID` / `TaxSchemeName` are
`Option` because the source only sets those dictionary keys when the
corresponding element was found. -/
structure TaxData where
  TaxSchemeID : Option String
  TaxSchemeName : Option String
  Percent : String
  TaxAmount : String
  TaxableAmount : String
  LineNumber : String
  ItemName : String
  Quantity : String
  UnitPrice : String
  LineExtensionAmount : String
deriving DecidableEq, Repr

namespace XmlProc

/-- The retained-tax-total test of `extract_tax_information` (lines 444-446):
only the immediate parent is inspected, with a substring test on its tag. -/
def keepTaxTotal (anc : List XTree) : Bool :=
  match anc with
  | [] => true
  | p :: _ => ! strContains p.tag ("InvoiceLine")

/-- Field extraction shared verbatim by the two branches of
`extract_tax_information` (lines 453-500 read a `TaxSubtotal`, lines 502-549
repeat the same code reading the `TaxTotal` itself).

`bound` tracks whether the Python local `scheme_name` has been assigned in
this call so far: it is only assigned under `if tax_scheme is not None`, and
is read unconditionally by `if scheme_name in ['IBUA', 'ICL', 'ADV']`.  When
still unbound there, the read raises `UnboundLocalError`, which the
function's `except` swallows, returning the entries accumulated so far —
modelled by the `none` result.  When bound, `scheme_name` is an `lxml`
element (not a string), so the membership test is always false and
`LineExtensionAmount` gets `tax_data.get('TaxableAmount', '0.00')`, which is
always the `TaxableAmount` value just stored. -/
def processOne (bound : Bool) (e : XTree) : Option (TaxData × Bool) :=
  let ts := e.find1 (cacQ ("TaxScheme"))
  let bound2 := bound || ts.isSome
  let sid := ts.bind (fun s => (s.find1 (cbcQ ("ID"))).map (textOrD ("")))
  let snm := ts.bind (fun s => (s.find1 (cbcQ ("Name"))).map (textOrD ("")))
  let pct := ((e.find1 (cbcQ ("Percent"))).map (textOrD ("0.00"))).getD ("0.00")
  let ta := ((e.find1 (cbcQ ("TaxAmount"))).map (textOrD ("0.00"))).getD ("0.00")
  let tb := ((e.find1 (cbcQ ("TaxableAmount"))).map (textOrD ("0.00"))).getD ("0.00")
  if bound2 then
    some ({ TaxSchemeID := sid, TaxSchemeName := snm, Percent := pct, TaxAmount := ta,
            TaxableAmount := tb, LineNumber := ("DOC"),
            ItemName := ("Impuesto a nivel documento"), Quantity := ("1"),
            UnitPrice := ("0.00"), LineExtensionAmount := tb }, bound2)
  else none

/-- The inner `for tax_subtotal in tax_subtotals` loop.  The final `Bool` is
false when the loop aborted with the `UnboundLocalError` of `processOne`. -/
def processSubs (bound : Bool) (acc : List TaxData) :
    List XTree → List TaxData × Bool × Bool
  | [] => (acc, bound, true)
  | s :: ss =>
    match processOne bound s with
    | none => (acc, bound, false)
    | some (d, b2) => processSubs b2 (acc ++ [d]) ss

/-- The outer `for tax_total in document_tax_totals` loop. -/
def extractLoop (bound : Bool) (acc : List TaxData) :
    List (XTree × List XTree) → List TaxData
  | [] => acc
  | (tt, anc) :: rest =>
    if keepTaxTotal anc then
      match tt.findall (cacQ ("TaxSubtotal")) with
      | [] =>
        match processOne bound tt with
        | none => acc
        | some (d, b2) => extractLoop b2 (acc ++ [d]) rest
      | s :: ss =>
        match processSubs bound acc (s :: ss) with
        | (acc2, b2, true) => extractLoop b2 acc2 rest
        | (acc2, _, false) => acc2
    else extractLoop bound acc rest

/-- `XMLProcessor.extract_tax_information` (lines 406-554). -/
def extract_tax_information (root : XTree) : List TaxData :=
  extractLoop false [] (root.findallAnc (cacQ ("TaxTotal")))

end XmlProc

namespace App

/-- The document-level filter of the root `app.py`'s
`parse_invoice_for_structure` (lines 244-257): it walks the whole ancestor
chain with `parent.tag.endswith('InvoiceLine')` and keeps a `TaxTotal` only
when no ancestor matches. -/
def doc_level_tax_totals (root : XTree) : List XTree :=
  ((root.findallAnc (cacQ ("TaxTotal"))).filter
    (fun p => ! p.2.any (fun a => pyEndsWith a.tag ("InvoiceLine")))).map Prod.fst

end App

/-! ## `XMLProcessor.separate_taxes_by_type` and `classify_tax_type` -/

/-- The result of Python `float(...)` on a numeric string: `none` models a
raised `ValueError`. -/
abbrev PyVal := Option ℚ

/-- One entry of the `tax_info` list as `separate_taxes_by_type` reads it: a
dictionary whose keys may each be absent (`Option`), its amount strings
paired with their `float(...)` outcome (`PyVal`). -/
structure TaxLine where
  TaxSchemeName : Option String
  Percent : Option String
  TaxAmount : Option PyVal
  TaxableAmount : Option PyVal
  LineExtensionAmount : Option PyVal
deriving DecidableEq

/-- One consolidated entry produced by `separate_taxes_by_type`.  The source
converts the two sums to strings with `f"\x7b...:.2f\x7d"` just before returning;
the numeric accumulated values are kept here and `fmt2` models that
presentation step. -/
structure TaxGroup where
  TaxSchemeName : String
  Percent : String
  consolidated_tax_amount : ℚ
  consolidated_base_amount : ℚ
  line_count : ℕ
deriving DecidableEq, Repr

namespace XmlProc

/-- `float(tax_line.get('TaxAmount', '0'))`; `float('0') = 0.0`. -/
def amtVal (t : TaxLine) : PyVal := t.TaxAmount.getD (some 0)

/-- `float(tax_line.get('TaxableAmount', tax_line.get('LineExtensionAmount', '0')))`. -/
def baseVal (t : TaxLine) : PyVal :=
  (t.TaxableAmount.getD (t.LineExtensionAmount.getD (some 0)))

/-- `tax_line.get('TaxSchemeName', 'Sin Impuesto')`. -/
def schemeOf (t : TaxLine) : String := t.TaxSchemeName.getD ("Sin Impuesto")

/-- `tax_line.get('Percent', '0.00')`. -/
def pctOf (t : TaxLine) : String := t.Percent.getD ("0.00")

/-- The `consolidation_key` of `separate_taxes_by_type` (lines 764-770):
the scheme name alone for `ADV`, otherwise the string
`f"\x7bscheme_name\x7d_\x7bpercent\x7d"`. -/
def consolidationKey (t : TaxLine) : String :=
  if schemeOf t = ("ADV") then schemeOf t else schemeOf t ++ ("_") ++ pctOf t

/-- The `Percent` recorded for the line's group: the sentinel `'MIXTO'` for
`ADV`, otherwise the line's percent string. -/
def groupPct (t : TaxLine) : String :=
  if schemeOf t = ("ADV") then ("MIXTO") else pctOf t

/-- One dictionary update of `taxes_by_scheme_and_percent` (lines 772-785);
the association list keeps Python's dict insertion order. -/
def updAssoc (k : String) (t : TaxLine) (ta ba : ℚ) :
    List (String × TaxGroup) → List (String × TaxGroup)
  | [] => [(k, { TaxSchemeName := schemeOf t, Percent := groupPct t,
                 consolidated_tax_amount := ta, consolidated_base_amount := ba,
                 line_count := 1 })]
  | (k2, g) :: rest =>
    if k2 = k then
      (k2, { g with consolidated_tax_amount := g.consolidated_tax_amount + ta,
                    consolidated_base_amount := g.consolidated_base_amount + ba,
                    line_count := g.line_count + 1 }) :: rest
    else (k2, g) :: updAssoc k t ta ba rest

/-- The `for tax_line in tax_info` loop; `none` models the `ValueError` of a
`float(...)` call, which the enclosing `except` turns into a `[]` result. -/
def consolidateGo : List TaxLine → List (String × TaxGroup) →
    Option (List (String × TaxGroup))
  | [], acc => some acc
  | t :: ts, acc =>
    match amtVal t, baseVal t with
    | some ta, some ba => consolidateGo ts (updAssoc (consolidationKey t) t ta ba acc)
    | _, _ => none

/-- The sort key relation of line 795:
Python's tuple order on `(x['TaxSchemeName'], x['Percent'])`. -/
def leGroup (g1 g2 : TaxGroup) : Bool :=
  if g1.TaxSchemeName = g2.TaxSchemeName then strLe g1.Percent g2.Percent
  else strLt g1.TaxSchemeName g2.TaxSchemeName

/-- `XMLProcessor.separate_taxes_by_type` (lines 720-802): group the lines by
`consolidationKey` accumulating sums and counts, then sort by
`(TaxSchemeName, Percent)`; any `float(...)` failure makes the whole call
return `[]`. -/
def separate_taxes_by_type (l : List TaxLine) : List TaxGroup :=
  match consolidateGo l [] with
  | none => []
  | some m => (m.map Prod.snd).mergeSort leGroup

end XmlProc

/-- The dictionary handed to `XMLProcessor.classify_tax_type` (in the source,
a consolidated-tax dictionary whose amount values are the `f"\x7b...:.2f\x7d"`
strings of the accumulated sums). -/
structure TaxDict where
  Percent : Option String
  consolidated_tax_amount : Option PyVal
  consolidated_base_amount : Option PyVal
  TaxSchemeName : Option String
deriving DecidableEq

namespace XmlProc

/-- `XMLProcessor.classify_tax_type` (lines 650-694).  `percent` and
`scheme_name` are read (for logging) but never used in the decision; a
`float` failure on either amount is caught and yields `'INDEFINIDO'`. -/
def classify_tax_type (x : TaxDict) : String :=
  match x.consolidated_tax_amount.getD (some 0), x.consolidated_base_amount.getD (some 0) with
  | some tax_amount, some base_amount =>
    if tax_amount < 0 ∨ base_amount < 0 then ("INDEFINIDO")
    else if 0 < tax_amount then ("GRAVADO")
    else if 0 < base_amount then ("EXENTO")
    else if base_amount = 0 ∧ tax_amount = 0 then ("EXCLUIDO")
    else ("INDEFINIDO")
  | _, _ => ("INDEFINIDO")

end XmlProc

namespace XmlProc

/-- The `TaxDict` actually passed to `classify_tax_type` for a consolidated
group (in the source the amounts travel as their `f"\x7b...:.2f\x7d"` strings,
whose `float(...)` round-trip is the rounded sum; the sub-cent rounding is
presentation-level and not re-applied here). -/
def dictOfGroup (g : TaxGroup) : TaxDict :=
  { Percent := some g.Percent,
    consolidated_tax_amount := some (some g.consolidated_tax_amount),
    consolidated_base_amount := some (some g.consolidated_base_amount),
    TaxSchemeName := some g.TaxSchemeName }

/-- `XMLProcessor.create_separated_tax_description` (lines 804-851). -/
def create_separated_tax_description (g : TaxGroup) : String :=
  let tax_type := classify_tax_type (dictOfGroup g)
  if g.TaxSchemeName = ("") then ("Sin Impuestos - ") ++ tax_type
  else
    let fp := match pyFloat g.Percent with
      | some q => fmt2 q
      | none => g.Percent
    let base := g.TaxSchemeName ++ (" - Impuesto (") ++ fp ++ ("%) - ") ++ tax_type
    if 1 < g.line_count then
      base ++ (" - Consolidado (") ++ Nat.repr g.line_count ++ (" líneas)")
    else base

/-- `XMLProcessor.detect_document_type` (lines 249-289): map the root tag's
local name to a document-type label. -/
def detect_document_type (root : XTree) : String :=
  let n := localName root.tag
  if n = ("Invoice") then ("FACTURA")
  else if n = ("Factura") then ("FACTURA")
  else if n = ("CreditNote") then ("NOTA DE CRÉDITO")
  else if n = ("NotaCredito") then ("NOTA DE CRÉDITO")
  else if n = ("DebitNote") then ("NOTA DE DÉBITO")
  else if n = ("NotaDebito") then ("NOTA DE DÉBITO")
  else if n = ("DespatchAdvice") then ("GUÍA DE REMISIÓN")
  else if n = ("GuiaRemision") then ("GUÍA DE REMISIÓN")
  else ("DOCUMENTO DESCONOCIDO")

/-- The fields of `XMLProcessor.extract_basic_info` consumed by the row stage
of `parse_invoice_for_structure`.  (The method also extracts client,
currency and total amounts; those are independent per-field reads that no
row field of this stage consumes, and defaults are empty strings.) -/
structure BasicInfo where
  ID_Factura : String
  Fecha : String
  NIT_Proveedor : String
  Fecha_Vencimiento : String
  ID_Documento_Electronico : String
deriving DecidableEq, Repr

/-- `XMLProcessor.extract_basic_info` (lines 291-404), restricted to the
fields above; each is the text of the first matching descendant (with
`elem.text or ''`), defaulting to the empty string. -/
def extract_basic_info (root : XTree) : BasicInfo :=
  { ID_Factura := ((root.find1 (cbcQ ("ID"))).map (textOrD (""))).getD (""),
    Fecha := ((root.find1 (cbcQ ("IssueDate"))).map (textOrD (""))).getD (""),
    NIT_Proveedor :=
      (((root.find1 (cacQ ("AccountingSupplierParty"))).bind
        (fun p => (p.findall (cacQ ("PartyTaxScheme"))).flatMap
          (fun q => q.findall (cbcQ ("CompanyID"))) |>.head?)).map (textOrD (""))).getD (""),
    Fecha_Vencimiento := ((root.find1 (cbcQ ("DueDate"))).map (textOrD (""))).getD (""),
    ID_Documento_Electronico := ((root.find1 (cbcQ ("UUID"))).map (textOrD (""))).getD ("") }

/-- One output row of `XMLProcessor.parse_invoice_for_structure`
(lines 625-641).  `Valor` / `Base` hold the group's accumulated sums (the
source carries their two-decimal string form). -/
structure Row where
  Cuenta : String
  Comprobante : String
  Fecha : String
  Documento : String
  Documento_Ref : String
  Nit : String
  Detalle : String
  Tipo : String
  Estado_Fiscal : String
  Valor : ℚ
  Base : ℚ
  Centro_Costo : String
  Trans_Ext : String
  Plazo : String
  Docto_Electronico : String
deriving DecidableEq

/-- The row built for one consolidated tax group (lines 614-643). -/
def mkRow (document_type : String) (b : BasicInfo) (zip_name : String)
    (g : TaxGroup) : Row :=
  let tax_type := classify_tax_type (dictOfGroup g)
  { Cuenta := document_type, Comprobante := (""), Fecha := b.Fecha,
    Documento := pyTakeLast 5 b.ID_Factura, Documento_Ref := zip_name,
    Nit := b.NIT_Proveedor, Detalle := create_separated_tax_description g,
    Tipo := tax_type, Estado_Fiscal := tax_type,
    Valor := g.consolidated_tax_amount, Base := g.consolidated_base_amount,
    Centro_Costo := (""), Trans_Ext := (""), Plazo := b.Fecha_Vencimiento,
    Docto_Electronico := b.ID_Documento_Electronico }

/-- Bridge from an extracted `TaxData` record (string fields) to the
dictionary view `separate_taxes_by_type` takes, pairing each amount string
with its `float(...)` outcome. -/
def toTaxLine (d : TaxData) : TaxLine :=
  { TaxSchemeName := d.TaxSchemeName, Percent := some d.Percent,
    TaxAmount := some (pyFloat d.TaxAmount),
    TaxableAmount := some (pyFloat d.TaxableAmount),
    LineExtensionAmount := some (pyFloat d.LineExtensionAmount) }

/-- `XMLProcessor.parse_invoice_for_structure` (lines 556-648) from the
parsed tree on: extract basic info and tax info, consolidate, and emit one
row per consolidated group — and, notably, no placeholder row when there
are no groups.  (`filename` is only used in the source's log messages.) -/
def parse_invoice_for_structure (root : XTree) (_filename zip_name : String) :
    List Row :=
  let document_type := detect_document_type root
  let b := extract_basic_info root
  let tax_info := extract_tax_information root
  let separated := separate_taxes_by_type (tax_info.map toTaxLine)
  separated.map (mkRow document_type b zip_name)

end XmlProc

/-! ## Root `app.py` — the monolithic pipeline -/

namespace App

/-- `app.py` `classify_tax_status` (lines 168-183): a rate-based rule, unlike
`XMLProcessor.classify_tax_type`.  `percent` arrives as the string sliced out
of the tax description; `float(percent)` is applied when it is non-empty and
an unparseable value raises (`none`), uncaught inside this function.  The two
amounts are already floats (`float(x) if x else 0.0` is the identity there).
The `tax_type` argument is unused in the source as well. -/
def classify_tax_status (_tax_type : String) (percent : String)
    (tax_amount taxable_amount : ℚ) : Option String :=
  match (if percent = ("") then some (0 : ℚ) else pyFloat percent) with
  | none => none
  | some p =>
    some (if p = 0 ∧ 0 < taxable_amount then ("EXENTO")
      else if 0 < p ∧ 0 < tax_amount then ("GRAVADO")
      else if 0 < p ∧ tax_amount = 0 then ("EXENTO")
      else if taxable_amount = 0 then ("EXCLUIDO")
      else ("INDEFINIDO"))

/-- The percent-recovery slice of `app.py` lines 296-303: the text between
the first `(` and the first `%)` of the tax description, `'0'` otherwise. -/
def percent_from_description (desc : String) : String :=
  if strContains desc ("(") && strContains desc ("%)") then
    let ps := pyFind desc ("(") + 1
    let pe := pyFind desc ("%)")
    if 0 < ps ∧ ps < pe then pySlice desc ps pe else ("0")
  else ("0")

/-- The per-document header fields `app.py`'s row builder copies into every
row of the document. -/
structure Header where
  document_type : String
  fecha : String
  numero_factura : String
  zip_name : String
  nit_proveedor : String
  plazo : String
  uuid : String
deriving DecidableEq

/-- One output row of `app.py` (lines 308-323 and 330-345). -/
structure AppRow where
  Cuenta : String
  Comprobante : String
  Fecha : String
  Documento : String
  DocumentoRef : String
  Nit : String
  Detalle : String
  Tipo : String
  Valor : ℚ
  Base : ℚ
  CentroCosto : String
  TransExt : String
  Plazo : String
  DoctoElectronico : String
deriving DecidableEq

/-- Row constructor shared by the per-group rows and the placeholder row. -/
def buildRow (h : Header) (detalle estado : String) (v b : ℚ) : AppRow :=
  { Cuenta := (""), Comprobante := h.document_type, Fecha := h.fecha,
    Documento := h.numero_factura, DocumentoRef := h.zip_name,
    Nit := h.nit_proveedor, Detalle := detalle, Tipo := estado, Valor := v,
    Base := b, CentroCosto := (""), TransExt := (""), Plazo := h.plazo,
    DoctoElectronico := h.uuid }

/-- The `for tax_description, values in tax_groups.items()` loop of `app.py`
lines 294-325: one row per grouped tax, `Valor`/`Base` rounded to two
decimals; a `ValueError` from `classify_tax_status` (`none`) propagates to
the document-level `except`, which returns `[]` for the whole document. -/
def rowsLoop (h : Header) : List (String × ℚ × ℚ) → Option (List AppRow)
  | [] => some []
  | (desc, ta, ba) :: rest =>
    match classify_tax_status ("Impuesto") (percent_from_description desc) ta ba with
    | none => none
    | some estado =>
      (rowsLoop h rest).map (fun rs => buildRow h desc estado (round2 ta) (round2 ba) :: rs)

/-- The row-assembly stage of `app.py`'s `parse_invoice_for_structure`
(lines 294-346): rows for the grouped taxes, and — when that left `rows`
empty — exactly one placeholder row `('Sin Impuestos', 'EXCLUIDO', 0.0, 0.0)`
(lines 327-346). -/
def assemble_rows (h : Header) (groups : List (String × ℚ × ℚ)) :
    Option (List AppRow) :=
  match rowsLoop h groups with
  | none => none
  | some [] => some [buildRow h ("Sin Impuestos") ("EXCLUIDO") 0 0]
  | some (r :: rs) => some (r :: rs)

/-- The input of `app.py`'s `extract_invoice_from_xml`: the raw payload of
one archive entry.  `parsed` is the outcome of `etree.fromstring` (`none`
models the parse exception for a payload that is not well-formed XML);
`decoded` is the outcome of the strict UTF-8 decode used by the fallback
return (`none` models a `UnicodeDecodeError`). -/
structure RawXml where
  parsed : Option XTree
  decoded : Option String

/-- The per-element body of the `for elem in root.iter()` loop of
`extract_invoice_from_xml` (lines 41-49): when the element's text is truthy
and contains both an XML declaration and `Invoice`, slice from the first
`<?xml` to just past the last `</Invoice>`. -/
def embeddedOf (e : XTree) : Option String :=
  match e.text with
  | none => none
  | some t =>
    if t = ("") then none
    else if strContains t ("<?xml") && strContains t ("Invoice") then
      let start := pyFind t ("<?xml")
      let stop := pyRfind t ("</Invoice>") + 10
      if start ≠ -1 ∧ stop ≠ -1 then some (pySlice t start stop) else none
    else none

/-- `app.py` `extract_invoice_from_xml` (lines 36-53): parse the payload,
scan every node's text for an embedded invoice document, fall back to the
decoded payload itself; any exception (unparseable XML, failing decode)
yields `None`. -/
def extract_invoice_from_xml (x : RawXml) : Option String :=
  match x.parsed with
  | none => none
  | some root =>
    match (root.iterAll).findSome? embeddedOf with
    | some s => some s
    | none => x.decoded

/-- One entry of a ZIP archive as `app.py`'s `extract_xml_from_zip` reads it
(name plus fully-read content, bytes abstracted as a string). -/
structure ZipEntry where
  filename : String
  content : String
deriving DecidableEq

/-- The input of `app.py`'s `extract_xml_from_zip`: `entries` is the outcome
of opening the byte stream with `zipfile.ZipFile` and reading it (`none`
models the `BadZipFile`/read exception of a stream that is not a valid ZIP
archive). -/
structure ZipInput where
  entries : Option (List ZipEntry)

/-- `app.py` `extract_xml_from_zip` (lines 17-34): the entries whose names
end in `.xml` case-insensitively; any exception while opening or reading
gives `[]`. -/
def extract_xml_from_zip (z : ZipInput) : List ZipEntry :=
  match z.entries with
  | none => []
  | some es => es.filter (fun e => pyEndsWith (pyLower e.filename) (".xml"))

end App

/-! ## Concrete documents and tax lines used to exercise the model -/

/-- The qualified root tag of a UBL invoice. -/
def invTag : String := "\x7burn:oasis:names:specification:ubl:schema:xsd:Invoice-2\x7dInvoice"

/-- Leaf element with text. -/
def leafE (tg tx : String) : XTree := XTree.node tg (some tx) (xf [])

/-- Interior element without text. -/
def elemE (tg : String) (cs : List XTree) : XTree := XTree.node tg none (xf cs)

/-- A `TaxSubtotal` as it appears inside a line-level `TaxTotal`. -/
def subIVA19 : XTree :=
  elemE (cacQ ("TaxSubtotal"))
    [leafE (cbcQ ("TaxableAmount")) ("100.00"),
     leafE (cbcQ ("TaxAmount")) ("19.00"),
     elemE (cacQ ("TaxCategory"))
       [leafE (cbcQ ("Percent")) ("19.00"),
        elemE (cacQ ("TaxScheme"))
          [leafE (cbcQ ("ID")) ("01"), leafE (cbcQ ("Name")) ("IVA")]]]

/-- An invoice whose only `TaxTotal` sits at depth 3 inside an `InvoiceLine`
(`InvoiceLine → Item → TaxTotal`), i.e. a line-level tax block whose
*immediate* parent is not the `InvoiceLine` itself. -/
def treeNestedDeep : XTree :=
  elemE invTag
    [elemE (cacQ ("InvoiceLine"))
      [elemE (cacQ ("Item"))
        [elemE (cacQ ("TaxTotal")) [leafE (cbcQ ("TaxAmount")) ("19.00"), subIVA19]]]]

/-- The record `extract_tax_information` emits for `treeNestedDeep`. -/
def dataNestedDeep : TaxData :=
  { TaxSchemeID := some ("01"), TaxSchemeName := some ("IVA"),
    Percent := ("19.00"), TaxAmount := ("19.00"), TaxableAmount := ("100.00"),
    LineNumber := ("DOC"), ItemName := ("Impuesto a nivel documento"),
    Quantity := ("1"), UnitPrice := ("0.00"), LineExtensionAmount := ("100.00") }

/-- An invoice with one document-level `TaxTotal` that has no `TaxSubtotal`
children and no `TaxScheme` element. -/
def treeNoScheme : XTree :=
  elemE invTag [elemE (cacQ ("TaxTotal")) [leafE (cbcQ ("TaxAmount")) ("5.00")]]

/-- Like `treeNoScheme` but with a `TaxScheme` present. -/
def treeWithScheme : XTree :=
  elemE invTag
    [elemE (cacQ ("TaxTotal"))
      [elemE (cacQ ("TaxScheme"))
        [leafE (cbcQ ("ID")) ("01"), leafE (cbcQ ("Name")) ("IVA")],
       leafE (cbcQ ("TaxAmount")) ("5.00")]]

/-- The record `extract_tax_information` emits for `treeWithScheme`. -/
def dataWithScheme : TaxData :=
  { TaxSchemeID := some ("01"), TaxSchemeName := some ("IVA"),
    Percent := ("0.00"), TaxAmount := ("5.00"), TaxableAmount := ("0.00"),
    LineNumber := ("DOC"), ItemName := ("Impuesto a nivel documento"),
    Quantity := ("1"), UnitPrice := ("0.00"), LineExtensionAmount := ("0.00") }

/-- An invoice carrying no `TaxTotal` element at all. -/
def treeNoTaxes : XTree :=
  elemE invTag
    [leafE (cbcQ ("ID")) ("SETP990012345"), leafE (cbcQ ("IssueDate")) ("2024-01-15")]

/-- An `IVA` 19% tax line (amount 19, base 100). -/
def lineIVA19 : TaxLine :=
  { TaxSchemeName := some ("IVA"), Percent := some ("19.00"),
    TaxAmount := some (some 19), TaxableAmount := some (some 100),
    LineExtensionAmount := some (some 100) }

/-- A second `IVA` 19% tax line (amount 38, base 200). -/
def lineIVA19b : TaxLine :=
  { TaxSchemeName := some ("IVA"), Percent := some ("19.00"),
    TaxAmount := some (some 38), TaxableAmount := some (some 200),
    LineExtensionAmount := some (some 200) }

/-- An `ADV` tax line at 20% (amount 50, base 250). -/
def lineADV20 : TaxLine :=
  { TaxSchemeName := some ("ADV"), Percent := some ("20.00"),
    TaxAmount := some (some 50), TaxableAmount := some (some 250),
    LineExtensionAmount := some (some 250) }

/-- An `ADV` tax line at 35% (amount 70, base 200). -/
def lineADV35 : TaxLine :=
  { TaxSchemeName := some ("ADV"), Percent := some ("35.00"),
    TaxAmount := some (some 70), TaxableAmount := some (some 200),
    LineExtensionAmount := some (some 200) }

/-- A tax line whose `TaxAmount` string does not parse as a number. -/
def lineBadAmount : TaxLine :=
  { TaxSchemeName := some ("IVA"), Percent := some ("19.00"),
    TaxAmount := some none, TaxableAmount := some (some 100),
    LineExtensionAmount := some (some 100) }

/-- Scheme `IVA_5`, percent `00`: concatenated key `IVA_5_00`. -/
def lineUnders1 : TaxLine :=
  { TaxSchemeName := some ("IVA_5"), Percent := some ("00"),
    TaxAmount := some (some 1), TaxableAmount := some (some 10),
    LineExtensionAmount := some (some 10) }

/-- Scheme `IVA`, percent `5_00`: the same concatenated key `IVA_5_00`
although the `(scheme_name, percent)` pair differs from `lineUnders1`. -/
def lineUnders2 : TaxLine :=
  { TaxSchemeName := some ("IVA"), Percent := some ("5_00"),
    TaxAmount := some (some 2), TaxableAmount := some (some 20),
    LineExtensionAmount := some (some 20) }

/-- A consolidated-tax dictionary with amount 5, base 0, percent `0`. -/
def dictGravadoZeroPct : TaxDict :=
  { Percent := some ("0"), consolidated_tax_amount := some (some 5),
    consolidated_base_amount := some (some 0), TaxSchemeName := some ("IVA") }

/-- A concrete document header for exercising the row assembler. -/
def hdr0 : App.Header :=
  { document_type := ("FACTURA"), fecha := ("2024-01-15"),
    numero_factura := ("12345"), zip_name := ("b.zip"),
    nit_proveedor := ("900123456"), plazo := (""), uuid := ("uuid-1") }

/-! ## Properties of the code-point lexicographic order -/

theorem char_toNat_inj {x y : Char} (h : x.toNat = y.toNat) : x = y :=
  (StrictMono.injective (f := Char.toNat) (fun _ _ hab => hab)) h

theorem lexLeB_cons_iff (x y : Char) (xs ys : List Char) :
    lexLeB (x :: xs) (y :: ys) = true ↔
      (x.toNat < y.toNat ∨ (x.toNat = y.toNat ∧ lexLeB xs ys = true)) := by
  simp only [lexLeB]
  by_cases h1 : x.toNat < y.toNat
  · simp [h1]
  · by_cases h2 : y.toNat < x.toNat
    · simp [h1, h2]
      omega
    · have h3 : x.toNat = y.toNat := by omega
      simp [h1, h2, h3]

theorem lexLtB_cons_iff (x y : Char) (xs ys : List Char) :
    lexLtB (x :: xs) (y :: ys) = true ↔
      (x.toNat < y.toNat ∨ (x.toNat = y.toNat ∧ lexLtB xs ys = true)) := by
  simp only [lexLtB]
  by_cases h1 : x.toNat < y.toNat
  · simp [h1]
  · by_cases h2 : y.toNat < x.toNat
    · simp [h1, h2]
      omega
    · have h3 : x.toNat = y.toNat := by omega
      simp [h1, h2, h3]

theorem lexLeB_total (a : List Char) : ∀ b, lexLeB a b = true ∨ lexLeB b a = true := by
  induction a with
  | nil => intro b; left; rfl
  | cons c cs ih =>
    intro b
    cases b with
    | nil => right; rfl
    | cons d ds =>
      rcases Nat.lt_trichotomy c.toNat d.toNat with h | h | h
      · left
        rw [lexLeB_cons_iff]
        exact Or.inl h
      · rcases ih ds with h2 | h2
        · left
          rw [lexLeB_cons_iff]
          exact Or.inr ⟨h, h2⟩
        · right
          rw [lexLeB_cons_iff]
          exact Or.inr ⟨h.symm, h2⟩
      · right
        rw [lexLeB_cons_iff]
        exact Or.inl h

theorem lexLeB_trans (a : List Char) :
    ∀ b c, lexLeB a b = true → lexLeB b c = true → lexLeB a c = true := by
  induction a with
  | nil => intro b c _ _; rfl
  | cons x xs ih =>
    intro b c hab hbc
    cases b with
    | nil => simp [lexLeB] at hab
    | cons y ys =>
      cases c with
      | nil => simp [lexLeB] at hbc
      | cons z zs =>
        rw [lexLeB_cons_iff] at hab hbc ⊢
        rcases hab with h1 | ⟨h1, h1r⟩ <;> rcases hbc with h2 | ⟨h2, h2r⟩
        · exact Or.inl (Nat.lt_trans h1 h2)
        · exact Or.inl (h2 ▸ h1)
        · exact Or.inl (h1 ▸ h2)
        · exact Or.inr ⟨h1.trans h2, ih ys zs h1r h2r⟩

theorem lexLtB_trans (a : List Char) :
    ∀ b c, lexLtB a b = true → lexLtB b c = true → lexLtB a c = true := by
  induction a with
  | nil =>
    intro b c hab hbc
    cases b with
    | nil => simp [lexLtB] at hab
    | cons y ys =>
      cases c with
      | nil => simp [lexLtB] at hbc
      | cons z zs => rfl
  | cons x xs ih =>
    intro b c hab hbc
    cases b with
    | nil => simp [lexLtB] at hab
    | cons y ys =>
      cases c with
      | nil => simp [lexLtB] at hbc
      | cons z zs =>
        rw [lexLtB_cons_iff] at hab hbc ⊢
        rcases hab with h1 | ⟨h1, h1r⟩ <;> rcases hbc with h2 | ⟨h2, h2r⟩
        · exact Or.inl (Nat.lt_trans h1 h2)
        · exact Or.inl (h2 ▸ h1)
        · exact Or.inl (h1 ▸ h2)
        · exact Or.inr ⟨h1.trans h2, ih ys zs h1r h2r⟩

theorem lexLtB_asymm (a : List Char) :
    ∀ b, lexLtB a b = true → lexLtB b a = true → False := by
  induction a with
  | nil =>
    intro b hab hba
    cases b with
    | nil => simp [lexLtB] at hab
    | cons y ys => simp [lexLtB] at hba
  | cons x xs ih =>
    intro b hab hba
    cases b with
    | nil => simp [lexLtB] at hab
    | cons y ys =>
      rw [lexLtB_cons_iff] at hab hba
      rcases hab with h1 | ⟨h1, h1r⟩ <;> rcases hba with h2 | ⟨h2, h2r⟩
      · omega
      · omega
      · omega
      · exact ih ys h1r h2r

theorem lex_trichotomy (a : List Char) : ∀ b, a = b ∨ lexLtB a b = true ∨ lexLtB b a = true := by
  induction a with
  | nil =>
    intro b
    cases b with
    | nil => exact Or.inl rfl
    | cons y ys => exact Or.inr (Or.inl rfl)
  | cons x xs ih =>
    intro b
    cases b with
    | nil => exact Or.inr (Or.inr rfl)
    | cons y ys =>
      rcases Nat.lt_trichotomy x.toNat y.toNat with h | h | h
      · exact Or.inr (Or.inl ((lexLtB_cons_iff x y xs ys).mpr (Or.inl h)))
      · rcases ih ys with h2 | h2 | h2
        · exact Or.inl (by rw [char_toNat_inj h, h2])
        · exact Or.inr (Or.inl ((lexLtB_cons_iff x y xs ys).mpr (Or.inr ⟨h, h2⟩)))
        · exact Or.inr (Or.inr ((lexLtB_cons_iff y x ys xs).mpr (Or.inr ⟨h.symm, h2⟩)))
      · exact Or.inr (Or.inr ((lexLtB_cons_iff y x ys xs).mpr (Or.inl h)))

theorem strLt_trans {a b c : String} (h1 : strLt a b = true) (h2 : strLt b c = true) :
    strLt a c = true :=
  lexLtB_trans a.data b.data c.data h1 h2

theorem strLt_asymm {a b : String} (h1 : strLt a b = true) (h2 : strLt b a = true) : False :=
  lexLtB_asymm a.data b.data h1 h2

theorem strLe_trans {a b c : String} (h1 : strLe a b = true) (h2 : strLe b c = true) :
    strLe a c = true :=
  lexLeB_trans a.data b.data c.data h1 h2

theorem strLe_total (a b : String) : strLe a b = true ∨ strLe b a = true :=
  lexLeB_total a.data b.data

theorem str_trichotomy (a b : String) : a = b ∨ strLt a b = true ∨ strLt b a = true := by
  rcases lex_trichotomy a.data b.data with h | h | h
  · left
    cases a
    cases b
    exact congrArg String.mk h
  · exact Or.inr (Or.inl h)
  · exact Or.inr (Or.inr h)

theorem leGroup_trans (g1 g2 g3 : TaxGroup) (h12 : XmlProc.leGroup g1 g2 = true)
    (h23 : XmlProc.leGroup g2 g3 = true) : XmlProc.leGroup g1 g3 = true := by
  unfold XmlProc.leGroup at h12 h23 ⊢
  by_cases e12 : g1.TaxSchemeName = g2.TaxSchemeName <;>
    by_cases e23 : g2.TaxSchemeName = g3.TaxSchemeName
  · have e13 : g1.TaxSchemeName = g3.TaxSchemeName := e12.trans e23
    rw [if_pos e12] at h12
    rw [if_pos e23] at h23
    rw [if_pos e13]
    exact strLe_trans h12 h23
  · have e13 : ¬ g1.TaxSchemeName = g3.TaxSchemeName := fun h => e23 (e12 ▸ h)
    rw [if_neg e23] at h23
    rw [if_neg e13, e12]
    exact h23
  · have e13 : ¬ g1.TaxSchemeName = g3.TaxSchemeName := fun h => e12 (h.trans e23.symm)
    rw [if_neg e12] at h12
    rw [if_neg e13, ← e23]
    exact h12
  · rw [if_neg e12] at h12
    rw [if_neg e23] at h23
    have hlt := strLt_trans h12 h23
    have e13 : ¬ g1.TaxSchemeName = g3.TaxSchemeName := by
      intro h
      exact strLt_asymm (h ▸ h12) h23
    rw [if_neg e13]
    exact hlt

theorem leGroup_total (g1 g2 : TaxGroup) :
    (XmlProc.leGroup g1 g2 || XmlProc.leGroup g2 g1) = true := by
  unfold XmlProc.leGroup
  by_cases e : g1.TaxSchemeName = g2.TaxSchemeName
  · rw [if_pos e, if_pos e.symm]
    rcases strLe_total g1.Percent g2.Percent with h | h <;> simp [h]
  · rw [if_neg e, if_neg (fun h => e h.symm)]
    rcases str_trichotomy g1.TaxSchemeName g2.TaxSchemeName with h | h | h
    · exact absurd h e
    · simp [h]
    · simp [h]

/-! ## Invariants of the consolidation fold -/

theorem updAssoc_sum_tax (k : String) (t : TaxLine) (ta ba : ℚ) :
    ∀ m, ((XmlProc.updAssoc k t ta ba m).map (fun e => e.2.consolidated_tax_amount)).sum =
      ((m.map (fun e => e.2.consolidated_tax_amount)).sum) + ta := by
  intro m
  induction m with
  | nil => simp [XmlProc.updAssoc]
  | cons e rest ih =>
    obtain ⟨k2, g⟩ := e
    by_cases h : k2 = k
    · simp [XmlProc.updAssoc, h]
      ring
    · simp [XmlProc.updAssoc, h, ih]
      ring

theorem updAssoc_sum_cnt (k : String) (t : TaxLine) (ta ba : ℚ) :
    ∀ m, ((XmlProc.updAssoc k t ta ba m).map (fun e => e.2.line_count)).sum =
      ((m.map (fun e => e.2.line_count)).sum) + 1 := by
  intro m
  induction m with
  | nil => simp [XmlProc.updAssoc]
  | cons e rest ih =>
    obtain ⟨k2, g⟩ := e
    by_cases h : k2 = k
    · simp [XmlProc.updAssoc, h]
      omega
    · simp [XmlProc.updAssoc, h, ih]
      omega

theorem updAssoc_keys (k : String) (t : TaxLine) (ta ba : ℚ) :
    ∀ m, (XmlProc.updAssoc k t ta ba m).map Prod.fst =
      if k ∈ m.map Prod.fst then m.map Prod.fst else m.map Prod.fst ++ [k] := by
  intro m
  induction m with
  | nil => simp [XmlProc.updAssoc]
  | cons e rest ih =>
    obtain ⟨k2, g⟩ := e
    by_cases h : k2 = k
    · simp [XmlProc.updAssoc, h]
    · by_cases hm : k ∈ rest.map Prod.fst
      · simp [XmlProc.updAssoc, h, ih, hm, List.mem_cons, Ne.symm h]
      · simp [XmlProc.updAssoc, h, ih, hm, List.mem_cons, Ne.symm h]

theorem updAssoc_keys_toFinset (k : String) (t : TaxLine) (ta ba : ℚ) (m : List (String × TaxGroup)) :
    ((XmlProc.updAssoc k t ta ba m).map Prod.fst).toFinset =
      insert k ((m.map Prod.fst).toFinset) := by
  rw [updAssoc_keys]
  by_cases hm : k ∈ m.map Prod.fst
  · rw [if_pos hm]
    rw [Finset.insert_eq_self.mpr (List.mem_toFinset.mpr hm)]
  · rw [if_neg hm]
    rw [List.toFinset_append]
    ext x
    simp [or_comm]

theorem updAssoc_keys_nodup (k : String) (t : TaxLine) (ta ba : ℚ)
    (m : List (String × TaxGroup)) (h : (m.map Prod.fst).Nodup) :
    ((XmlProc.updAssoc k t ta ba m).map Prod.fst).Nodup := by
  rw [updAssoc_keys]
  by_cases hm : k ∈ m.map Prod.fst
  · rw [if_pos hm]
    exact h
  · rw [if_neg hm]
    rw [List.nodup_append]
    refine ⟨h, List.nodup_singleton k, ?_⟩
    intro x hx hxk
    rw [List.mem_singleton] at hxk
    exact hm (hxk ▸ hx)

theorem updAssoc_adv_cnt (k : String) (t : TaxLine) (ta ba : ℚ) :
    ∀ m, (((XmlProc.updAssoc k t ta ba m).filter (fun e => e.1 = ("ADV"))).map
        (fun e => e.2.line_count)).sum =
      ((m.filter (fun e => e.1 = ("ADV"))).map (fun e => e.2.line_count)).sum +
        (if k = ("ADV") then 1 else 0) := by
  intro m
  induction m with
  | nil =>
    by_cases hk : k = ("ADV") <;> simp [XmlProc.updAssoc, List.filter, hk]
  | cons e rest ih =>
    obtain ⟨k2, g⟩ := e
    simp only [XmlProc.updAssoc]
    by_cases h : k2 = k
    · rw [if_pos h]
      by_cases hk2 : k2 = ("ADV")
      · have hk : k = ("ADV") := h.symm.trans hk2
        simp [List.filter, hk2, hk]
        omega
      · have hk : ¬ k = ("ADV") := fun hh => hk2 (h.trans hh)
        simp [List.filter, hk2, hk]
    · rw [if_neg h]
      by_cases hk2 : k2 = ("ADV")
      · simp [List.filter, hk2, ih]
        omega
      · simp [List.filter, hk2, ih]

theorem updAssoc_adv_shape (t : TaxLine) (ta ba : ℚ) :
    ∀ m, (∀ e ∈ m, e.2.TaxSchemeName = ("ADV") → e.1 = ("ADV") ∧ e.2.Percent = ("MIXTO")) →
      ∀ e ∈ XmlProc.updAssoc (XmlProc.consolidationKey t) t ta ba m,
        e.2.TaxSchemeName = ("ADV") → e.1 = ("ADV") ∧ e.2.Percent = ("MIXTO") := by
  intro m
  induction m with
  | nil =>
    intro _ e he hADV
    simp [XmlProc.updAssoc] at he
    subst he
    simp only at hADV ⊢
    by_cases hs : XmlProc.schemeOf t = ("ADV")
    · simp [XmlProc.consolidationKey, XmlProc.groupPct, hs]
    · exact absurd hADV hs
  | cons e0 rest ih =>
    intro hm e he hADV
    obtain ⟨k2, g⟩ := e0
    by_cases h : k2 = XmlProc.consolidationKey t
    · simp only [XmlProc.updAssoc, if_pos h, List.mem_cons] at he
      rcases he with he | he
      · subst he
        simp only at hADV ⊢
        have := hm (k2, g) (List.mem_cons_self _ _) hADV
        exact this
      · exact hm e (List.mem_cons_of_mem _ he) hADV
    · simp only [XmlProc.updAssoc, if_neg h, List.mem_cons] at he
      rcases he with he | he
      · subst he
        exact hm (k2, g) (List.mem_cons_self _ _) hADV
      · exact ih (fun x hx => hm x (List.mem_cons_of_mem _ hx)) e he hADV

theorem string_data_append (a b : String) : (a ++ b).data = a.data ++ b.data := by
  cases a
  cases b
  rfl

theorem consolidationKey_eq_ADV (t : TaxLine) :
    XmlProc.consolidationKey t = ("ADV") ↔ XmlProc.schemeOf t = ("ADV") := by
  unfold XmlProc.consolidationKey
  by_cases hs : XmlProc.schemeOf t = ("ADV")
  · rw [if_pos hs]
  · rw [if_neg hs]
    constructor
    · intro h
      exfalso
      have hu : ('_') ∈ (XmlProc.schemeOf t ++ ("_") ++ XmlProc.pctOf t).data := by
        rw [string_data_append, string_data_append]
        simp
      rw [h] at hu
      simp at hu
    · intro h
      exact absurd h hs

theorem consolidateGo_some :
    ∀ (l : List TaxLine),
      (∀ t ∈ l, XmlProc.amtVal t ≠ none ∧ XmlProc.baseVal t ≠ none) →
      ∀ acc, ∃ m, XmlProc.consolidateGo l acc = some m := by
  intro l
  induction l with
  | nil => intro _ acc; exact ⟨acc, rfl⟩
  | cons t ts ih =>
    intro h acc
    obtain ⟨h1, h2⟩ := h t (List.mem_cons_self _ _)
    cases hA : XmlProc.amtVal t with
    | none => exact absurd hA h1
    | some ta =>
      cases hB : XmlProc.baseVal t with
      | none => exact absurd hB h2
      | some ba =>
        obtain ⟨m, hm⟩ := ih (fun x hx => h x (List.mem_cons_of_mem _ hx))
          (XmlProc.updAssoc (XmlProc.consolidationKey t) t ta ba acc)
        refine ⟨m, ?_⟩
        simp only [XmlProc.consolidateGo, hA, hB]
        exact hm

theorem consolidateGo_sums :
    ∀ (l : List TaxLine) (acc m), XmlProc.consolidateGo l acc = some m →
      ((m.map (fun e => e.2.consolidated_tax_amount)).sum =
        (acc.map (fun e => e.2.consolidated_tax_amount)).sum +
          (l.map (fun t => (XmlProc.amtVal t).getD 0)).sum) ∧
      ((m.map (fun e => e.2.line_count)).sum =
        (acc.map (fun e => e.2.line_count)).sum + l.length) := by
  intro l
  induction l with
  | nil =>
    intro acc m hm
    simp only [XmlProc.consolidateGo, Option.some.injEq] at hm
    subst hm
    simp
  | cons t ts ih =>
    intro acc m hm
    simp only [XmlProc.consolidateGo] at hm
    cases hA : XmlProc.amtVal t with
    | none => rw [hA] at hm; simp at hm
    | some ta =>
      cases hB : XmlProc.baseVal t with
      | none => rw [hA, hB] at hm; simp at hm
      | some ba =>
        rw [hA, hB] at hm
        obtain ⟨s1, s2⟩ := ih _ _ hm
        constructor
        · rw [s1, updAssoc_sum_tax]
          simp [hA]
          ring
        · rw [s2, updAssoc_sum_cnt]
          simp
          omega

theorem consolidateGo_keys :
    ∀ (l : List TaxLine) (acc m), XmlProc.consolidateGo l acc = some m →
      ((m.map Prod.fst).toFinset =
        (acc.map Prod.fst).toFinset ∪ (l.map XmlProc.consolidationKey).toFinset) ∧
      ((acc.map Prod.fst).Nodup → (m.map Prod.fst).Nodup) := by
  intro l
  induction l with
  | nil =>
    intro acc m hm
    simp only [XmlProc.consolidateGo, Option.some.injEq] at hm
    subst hm
    simp
  | cons t ts ih =>
    intro acc m hm
    simp only [XmlProc.consolidateGo] at hm
    cases hA : XmlProc.amtVal t with
    | none => rw [hA] at hm; simp at hm
    | some ta =>
      cases hB : XmlProc.baseVal t with
      | none => rw [hA, hB] at hm; simp at hm
      | some ba =>
        rw [hA, hB] at hm
        obtain ⟨s1, s2⟩ := ih _ _ hm
        constructor
        · rw [s1, updAssoc_keys_toFinset]
          ext x
          simp only [Finset.mem_union, Finset.mem_insert, List.toFinset_cons, List.map_cons]
          tauto
        · intro hnd
          exact s2 (updAssoc_keys_nodup _ _ _ _ _ hnd)

theorem consolidateGo_adv :
    ∀ (l : List TaxLine) (acc m), XmlProc.consolidateGo l acc = some m →
      ((m.filter (fun e => e.1 = ("ADV"))).map (fun e => e.2.line_count)).sum =
        ((acc.filter (fun e => e.1 = ("ADV"))).map (fun e => e.2.line_count)).sum +
          (l.filter (fun t => XmlProc.consolidationKey t = ("ADV"))).length := by
  intro l
  induction l with
  | nil =>
    intro acc m hm
    simp only [XmlProc.consolidateGo, Option.some.injEq] at hm
    subst hm
    simp
  | cons t ts ih =>
    intro acc m hm
    simp only [XmlProc.consolidateGo] at hm
    cases hA : XmlProc.amtVal t with
    | none => rw [hA] at hm; simp at hm
    | some ta =>
      cases hB : XmlProc.baseVal t with
      | none => rw [hA, hB] at hm; simp at hm
      | some ba =>
        rw [hA, hB] at hm
        have s1 := ih _ _ hm
        rw [s1, updAssoc_adv_cnt]
        by_cases hk : XmlProc.consolidationKey t = ("ADV")
        · simp [List.filter, hk]
          omega
        · simp [List.filter, hk]

theorem consolidateGo_shape :
    ∀ (l : List TaxLine) (acc m), XmlProc.consolidateGo l acc = some m →
      (∀ e ∈ acc, e.2.TaxSchemeName = ("ADV") → e.1 = ("ADV") ∧ e.2.Percent = ("MIXTO")) →
      ∀ e ∈ m, e.2.TaxSchemeName = ("ADV") → e.1 = ("ADV") ∧ e.2.Percent = ("MIXTO") := by
  intro l
  induction l with
  | nil =>
    intro acc m hm hq
    simp only [XmlProc.consolidateGo, Option.some.injEq] at hm
    subst hm
    exact hq
  | cons t ts ih =>
    intro acc m hm hq
    simp only [XmlProc.consolidateGo] at hm
    cases hA : XmlProc.amtVal t with
    | none => rw [hA] at hm; simp at hm
    | some ta =>
      cases hB : XmlProc.baseVal t with
      | none => rw [hA, hB] at hm; simp at hm
      | some ba =>
        rw [hA, hB] at hm
        exact ih _ _ hm (updAssoc_adv_shape t ta ba acc hq)

theorem nodup_keys_countP (k : String) :
    ∀ (m : List (String × TaxGroup)), (m.map Prod.fst).Nodup →
      m.countP (fun e => e.1 = k) ≤ 1 := by
  intro m
  induction m with
  | nil => intro _; simp
  | cons e rest ih =>
    intro hnd
    obtain ⟨k2, g⟩ := e
    simp only [List.map_cons, List.nodup_cons] at hnd
    by_cases h : k2 = k
    · rw [List.countP_cons]
      have hz : rest.countP (fun e => e.1 = k) = 0 := by
        rw [List.countP_eq_zero]
        intro a ha
        simp only [decide_eq_true_eq]
        intro hak
        exact hnd.1 (by
          rw [← h] at hak
          exact hak ▸ List.mem_map_of_mem Prod.fst ha)
      simp [hz, h]
    · rw [List.countP_cons]
      simp only [decide_eq_true_eq, h]
      simpa using ih hnd.2

/-! ## Claim theorems -/

/-- C1: for every tax group whose amount strings parse to numbers `a`
(tax amount) and `b` (taxable base), `XMLProcessor.classify_tax_type`
returns exactly `INDEFINIDO` when `a < 0` or `b < 0`, otherwise `GRAVADO`
when `a > 0`, otherwise `EXENTO` when `b > 0`, otherwise `EXCLUIDO`; and
the result is independent of the `Percent` field (so a positive amount
with percent `0` is still `GRAVADO`). -/
theorem C1_classify_sign_table (x : TaxDict) (a b : ℚ) (p : Option String)
    (ha : x.consolidated_tax_amount = some (some a))
    (hb : x.consolidated_base_amount = some (some b)) :
    XmlProc.classify_tax_type x =
      (if a < 0 ∨ b < 0 then ("INDEFINIDO")
       else if 0 < a then ("GRAVADO")
       else if 0 < b then ("EXENTO")
       else ("EXCLUIDO")) ∧
    XmlProc.classify_tax_type { x with Percent := p } = XmlProc.classify_tax_type x := by
  constructor
  · unfold XmlProc.classify_tax_type
    rw [ha, hb]
    simp only [Option.getD_some]
    by_cases hneg : a < 0 ∨ b < 0
    · rw [if_pos hneg, if_pos hneg]
    · rw [if_neg hneg, if_neg hneg]
      by_cases hga : 0 < a
      · rw [if_pos hga, if_pos hga]
      · rw [if_neg hga, if_neg hga]
        by_cases hgb : 0 < b
        · rw [if_pos hgb, if_pos hgb]
        · rw [if_neg hgb, if_neg hgb]
          push_neg at hneg
          have ha0 : a = 0 := le_antisymm (not_lt.mp hga) hneg.1
          have hb0 : b = 0 := le_antisymm (not_lt.mp hgb) hneg.2
          rw [if_pos ⟨hb0, ha0⟩]
  · obtain ⟨xp, xta, xba, xn⟩ := x
    rfl

/-- C1 witness: amount `5`, base `0`, percent `"0"` classifies as `GRAVADO`,
and overriding the percent leaves the classification unchanged. -/
theorem C1_witness :
    XmlProc.classify_tax_type dictGravadoZeroPct = ("GRAVADO") ∧
    XmlProc.classify_tax_type { dictGravadoZeroPct with Percent := some ("77.00") } =
      XmlProc.classify_tax_type dictGravadoZeroPct := by
  have h := C1_classify_sign_table dictGravadoZeroPct 5 0 (some ("77.00")) rfl rfl
  constructor
  · rw [h.1]
    norm_num
  · exact h.2

/-- C7: when the payload is not parseable as XML, `app.py`'s
`extract_invoice_from_xml` returns `None` instead of raising. -/
theorem C7_locator_none_on_unparseable (x : App.RawXml) (h : x.parsed = none) :
    App.extract_invoice_from_xml x = none := by
  unfold App.extract_invoice_from_xml
  rw [h]

/-- C7 witness: a concrete unparseable payload yields `None`. -/
theorem C7_witness :
    App.extract_invoice_from_xml { parsed := none, decoded := some ("not xml at all") } = none :=
  C7_locator_none_on_unparseable _ rfl

/-- C8: when the byte stream is not a valid ZIP archive, `app.py`'s
`extract_xml_from_zip` returns the empty list instead of raising. -/
theorem C8_bad_zip_empty (z : App.ZipInput) (h : z.entries = none) :
    App.extract_xml_from_zip z = [] := by
  unfold App.extract_xml_from_zip
  rw [h]

/-- C8 witness: a concrete invalid archive yields `[]`. -/
theorem C8_witness : App.extract_xml_from_zip { entries := none } = [] :=
  C8_bad_zip_empty _ rfl

/-- C9: the consolidated group list is sorted nondecreasingly by the key
`(TaxSchemeName, Percent)` under Python's tuple comparison, i.e. code-point
lexicographic order on both strings (the rate key is a string — it can be
`MIXTO` — so the order is string order, not numeric order). -/
theorem C9_groups_sorted (l : List TaxLine) :
    List.Pairwise (fun g1 g2 => XmlProc.leGroup g1 g2 = true)
      (XmlProc.separate_taxes_by_type l) := by
  unfold XmlProc.separate_taxes_by_type
  cases h : XmlProc.consolidateGo l [] with
  | none => simp
  | some m => exact List.sorted_mergeSort leGroup_trans leGroup_total (m.map Prod.snd)

/-- Helper for C10: a single unparseable amount makes the whole
consolidation fold fail. -/
theorem consolidateGo_none :
    ∀ (l : List TaxLine),
      (∃ t ∈ l, XmlProc.amtVal t = none ∨ XmlProc.baseVal t = none) →
      ∀ acc, XmlProc.consolidateGo l acc = none := by
  intro l
  induction l with
  | nil => intro h; simp at h
  | cons t ts ih =>
    intro h acc
    cases hA : XmlProc.amtVal t with
    | none => simp [XmlProc.consolidateGo, hA]
    | some ta =>
      cases hB : XmlProc.baseVal t with
      | none => simp [XmlProc.consolidateGo, hA, hB]
      | some ba =>
        simp only [XmlProc.consolidateGo, hA, hB]
        apply ih
        rcases h with ⟨t2, ht2, hbad⟩
        rcases List.mem_cons.mp ht2 with h2 | hmem
        · subst h2
          rcases hbad with hb | hb
          · rw [hA] at hb
            exact absurd hb (by simp)
          · rw [hB] at hb
            exact absurd hb (by simp)
        · exact ⟨t2, hmem, hbad⟩

/-- C10: if any line carries a `TaxAmount` or effective `TaxableAmount`
string that does not parse, `separate_taxes_by_type` returns `[]`,
discarding every group of the document. -/
theorem C10_bad_line_discards_document (l : List TaxLine)
    (h : ∃ t ∈ l, XmlProc.amtVal t = none ∨ XmlProc.baseVal t = none) :
    XmlProc.separate_taxes_by_type l = [] := by
  unfold XmlProc.separate_taxes_by_type
  rw [consolidateGo_none l h []]

/-- C10 witness: one bad line next to a well-formed line still empties the
whole result. -/
theorem C10_witness :
    (∃ t ∈ [lineIVA19, lineBadAmount],
      XmlProc.amtVal t = none ∨ XmlProc.baseVal t = none) ∧
    XmlProc.separate_taxes_by_type [lineIVA19, lineBadAmount] = [] := by
  have hh : ∃ t ∈ [lineIVA19, lineBadAmount],
      XmlProc.amtVal t = none ∨ XmlProc.baseVal t = none := by decide
  exact ⟨hh, C10_bad_line_discards_document _ hh⟩

/-- C2: `XMLProcessor.extract_tax_information` checks only the *immediate*
parent of a `TaxTotal`, so the `TaxTotal` of `treeNestedDeep` — whose whole
ancestor chain does pass through an `InvoiceLine` — is still extracted
(one entry), while the full ancestor walk of the root `app.py` filter
excludes it. -/
theorem C2_deep_nested_tax_total_not_excluded :
    XmlProc.extract_tax_information treeNestedDeep = [dataNestedDeep] ∧
    ((treeNestedDeep.findallAnc (cacQ ("TaxTotal"))).all
      (fun p => p.2.any (fun a => strContains a.tag ("InvoiceLine")))) = true ∧
    (treeNestedDeep.findallAnc (cacQ ("TaxTotal"))).length = 1 ∧
    (App.doc_level_tax_totals treeNestedDeep).length = 0 := by
  refine ⟨by decide, by decide, by decide, by decide⟩

/-- C6: a retained document-level `TaxTotal` with no `TaxSubtotal` children
is dropped — not emitted as an implicit subtotal — when it has no
`TaxScheme` element (the unconditional read of the Python local
`scheme_name` raises `UnboundLocalError`, swallowed by the `except`),
whereas the same `TaxTotal` with a `TaxScheme` present does produce exactly
one entry with the `"0.00"` defaults. -/
theorem C6_implicit_subtotal_dropped_without_scheme :
    XmlProc.extract_tax_information treeNoScheme = [] ∧
    ((treeNoScheme.findallAnc (cacQ ("TaxTotal"))).filter
      (fun p => XmlProc.keepTaxTotal p.2 &&
        (p.1.findall (cacQ ("TaxSubtotal"))).isEmpty)).length = 1 ∧
    XmlProc.extract_tax_information treeWithScheme = [dataWithScheme] := by
  refine ⟨by decide, by decide, by decide⟩

/-- C3: when every line's amount strings parse, the sum of the consolidated
tax amounts over all output groups equals the sum of the lines' tax
amounts, and the groups' `line_count`s sum to the number of input lines
(each line lands in exactly one group, the `ADV`/`MIXTO` group included). -/
theorem C3_sum_conservation (l : List TaxLine)
    (h : ∀ t ∈ l, XmlProc.amtVal t ≠ none ∧ XmlProc.baseVal t ≠ none) :
    ((XmlProc.separate_taxes_by_type l).map (fun g => g.consolidated_tax_amount)).sum =
      (l.map (fun t => (XmlProc.amtVal t).getD 0)).sum ∧
    ((XmlProc.separate_taxes_by_type l).map (fun g => g.line_count)).sum = l.length := by
  obtain ⟨m, hm⟩ := consolidateGo_some l h []
  obtain ⟨s1, s2⟩ := consolidateGo_sums l [] m hm
  unfold XmlProc.separate_taxes_by_type
  rw [hm]
  have hperm : ((m.map Prod.snd).mergeSort XmlProc.leGroup).Perm (m.map Prod.snd) :=
    List.mergeSort_perm _ _
  constructor
  · rw [(hperm.map (fun g => g.consolidated_tax_amount)).sum_eq, List.map_map]
    simpa using s1
  · rw [(hperm.map (fun g => g.line_count)).sum_eq, List.map_map]
    simpa using s2

/-- C3 witness: a four-line document (two `IVA` 19% lines and two `ADV`
lines at different rates) satisfies the parseability hypothesis, and the
conserved sums follow by applying the theorem there. -/
theorem C3_witness :
    (∀ t ∈ [lineIVA19, lineADV20, lineADV35, lineIVA19b],
      XmlProc.amtVal t ≠ none ∧ XmlProc.baseVal t ≠ none) ∧
    ((XmlProc.separate_taxes_by_type [lineIVA19, lineADV20, lineADV35, lineIVA19b]).map
        (fun g => g.consolidated_tax_amount)).sum =
      ([lineIVA19, lineADV20, lineADV35, lineIVA19b].map
        (fun t => (XmlProc.amtVal t).getD 0)).sum := by
  have hh : ∀ t ∈ [lineIVA19, lineADV20, lineADV35, lineIVA19b],
      XmlProc.amtVal t ≠ none ∧ XmlProc.baseVal t ≠ none := by decide
  exact ⟨hh, (C3_sum_conservation _ hh).1⟩

/-- C4 counterexample: the rate key recorded for the consolidated `ADV`
group is the Spanish sentinel `'MIXTO'`, not `'MIXED'`; and two lines with
*different* `(scheme_name, percent)` pairs (`("IVA_5","00")` and
`("IVA","5_00")`) are merged into one group because the grouping key is the
underscore-concatenated string, not the pair. -/
theorem C4_counterexample :
    ((XmlProc.separate_taxes_by_type [lineADV20]).map (fun g => g.Percent)) = [("MIXTO")] ∧
    (("MIXTO") : String) ≠ ("MIXED") ∧
    (XmlProc.separate_taxes_by_type [lineUnders1, lineUnders2]).length = 1 ∧
    (lineUnders1.TaxSchemeName, lineUnders1.Percent) ≠
      (lineUnders2.TaxSchemeName, lineUnders2.Percent) := by
  refine ⟨?_, by decide, ?_, by decide⟩
  · simp [XmlProc.separate_taxes_by_type, XmlProc.consolidateGo, XmlProc.amtVal,
      XmlProc.baseVal, XmlProc.updAssoc, XmlProc.consolidationKey, XmlProc.schemeOf,
      XmlProc.pctOf, XmlProc.groupPct, lineADV20]
  · simp [XmlProc.separate_taxes_by_type, XmlProc.consolidateGo, XmlProc.amtVal,
      XmlProc.baseVal, XmlProc.updAssoc, XmlProc.consolidationKey, XmlProc.schemeOf,
      XmlProc.pctOf, XmlProc.groupPct, lineUnders1, lineUnders2]

/-- C4 amended: all `ADV` lines are merged into at most one group whose rate
key is the sentinel `'MIXTO'` and whose `line_count` counts every `ADV`
line; every other line is grouped by the underscore-concatenated key
`scheme_name ++ '_' ++ percent` (which coincides with grouping by the pair
`(scheme_name, percent)` except for underscore collisions), so the number of
groups equals the number of distinct consolidation keys. -/
theorem C4_amended (l : List TaxLine)
    (h : ∀ t ∈ l, XmlProc.amtVal t ≠ none ∧ XmlProc.baseVal t ≠ none) :
    (∀ g ∈ XmlProc.separate_taxes_by_type l,
      g.TaxSchemeName = ("ADV") → g.Percent = ("MIXTO")) ∧
    ((XmlProc.separate_taxes_by_type l).countP
      (fun g => g.TaxSchemeName = ("ADV"))) ≤ 1 ∧
    (∀ g ∈ XmlProc.separate_taxes_by_type l, g.TaxSchemeName = ("ADV") →
      g.line_count =
        (l.filter (fun t => XmlProc.schemeOf t = ("ADV"))).length) ∧
    (XmlProc.separate_taxes_by_type l).length =
      (l.map XmlProc.consolidationKey).toFinset.card := by
  obtain ⟨m, hm⟩ := consolidateGo_some l h []
  have hsep : XmlProc.separate_taxes_by_type l =
      (m.map Prod.snd).mergeSort XmlProc.leGroup := by
    unfold XmlProc.separate_taxes_by_type
    rw [hm]
  have hperm : ((m.map Prod.snd).mergeSort XmlProc.leGroup).Perm (m.map Prod.snd) :=
    List.mergeSort_perm _ _
  have hQ : ∀ e ∈ m, e.2.TaxSchemeName = ("ADV") →
      e.1 = ("ADV") ∧ e.2.Percent = ("MIXTO") :=
    consolidateGo_shape l [] m hm (by simp)
  obtain ⟨hkf, hknd0⟩ := consolidateGo_keys l [] m hm
  have hknd : (m.map Prod.fst).Nodup := hknd0 (by simp)
  refine ⟨?_, ?_, ?_, ?_⟩
  · intro g hg hADV
    rw [hsep] at hg
    obtain ⟨e, he, rfl⟩ := List.mem_map.mp ((hperm.mem_iff).mp hg)
    exact (hQ e he hADV).2
  · rw [hsep, List.Perm.countP_eq _ hperm, List.countP_map]
    have hmono : m.countP ((fun g => g.TaxSchemeName = ("ADV")) ∘ Prod.snd) ≤
        m.countP (fun e => e.1 = ("ADV")) := by
      apply List.countP_mono_left
      intro e he hp
      simp only [Function.comp, decide_eq_true_eq] at hp ⊢
      exact (hQ e he hp).1
    exact le_trans hmono (nodup_keys_countP _ m hknd)
  · intro g hg hADV
    rw [hsep] at hg
    obtain ⟨e, he, rfl⟩ := List.mem_map.mp ((hperm.mem_iff).mp hg)
    obtain ⟨hek, _⟩ := hQ e he hADV
    have hadv := consolidateGo_adv l [] m hm
    simp only [List.filter_nil, List.map_nil, List.sum_nil, Nat.zero_add] at hadv
    have hefilt : e ∈ m.filter (fun e2 => e2.1 = ("ADV")) :=
      List.mem_filter.mpr ⟨he, by simp [hek]⟩
    have hflen : (m.filter (fun e2 => e2.1 = ("ADV"))).length ≤ 1 := by
      rw [← List.countP_eq_length_filter]
      exact nodup_keys_countP _ m hknd
    have hsingle : m.filter (fun e2 => e2.1 = ("ADV")) = [e] := by
      cases hc : m.filter (fun e2 => e2.1 = ("ADV")) with
      | nil => rw [hc] at hefilt; simp at hefilt
      | cons x rest =>
        rw [hc] at hefilt hflen
        cases rest with
        | nil =>
          simp only [List.mem_singleton] at hefilt
          rw [hefilt]
        | cons y r2 => simp at hflen
    rw [hsingle] at hadv
    simp only [List.map_cons, List.map_nil, List.sum_cons, List.sum_nil,
      Nat.add_zero] at hadv
    rw [hadv]
    have hpred : l.filter (fun t => XmlProc.consolidationKey t = ("ADV")) =
        l.filter (fun t => XmlProc.schemeOf t = ("ADV")) := by
      apply List.filter_congr
      intro t _
      exact decide_eq_decide.mpr (consolidationKey_eq_ADV t)
    rw [hpred]
  · rw [hsep]
    have hlen : ((m.map Prod.snd).mergeSort XmlProc.leGroup).length = m.length := by
      simp
    rw [hlen]
    have h1 : (m.map Prod.fst).toFinset = (l.map XmlProc.consolidationKey).toFinset := by
      rw [hkf]
      simp
    have h2 : m.length = (m.map Prod.fst).length := by simp
    rw [h2, ← List.toFinset_card_of_nodup hknd, h1]

/-- C4 amended witness: two `ADV` lines at different rates plus one `IVA`
line satisfy the hypothesis; applying the amended theorem there gives at
most one `ADV` group and a group count equal to the number of distinct
consolidation keys. -/
theorem C4_witness :
    (∀ t ∈ [lineADV20, lineADV35, lineIVA19],
      XmlProc.amtVal t ≠ none ∧ XmlProc.baseVal t ≠ none) ∧
    ((XmlProc.separate_taxes_by_type [lineADV20, lineADV35, lineIVA19]).countP
      (fun g => g.TaxSchemeName = ("ADV"))) ≤ 1 ∧
    (XmlProc.separate_taxes_by_type [lineADV20, lineADV35, lineIVA19]).length =
      ([lineADV20, lineADV35, lineIVA19].map XmlProc.consolidationKey).toFinset.card := by
  have hh : ∀ t ∈ [lineADV20, lineADV35, lineIVA19],
      XmlProc.amtVal t ≠ none ∧ XmlProc.baseVal t ≠ none := by decide
  have h := C4_amended _ hh
  exact ⟨hh, h.2.1, h.2.2.2⟩

/-- C5 counterexample: for `treeNoTaxes` the consolidator output is empty,
yet `XMLProcessor.parse_invoice_for_structure` emits zero rows — no
placeholder row is produced by the refactored pipeline. -/
theorem C5_counterexample :
    XmlProc.separate_taxes_by_type
      ((XmlProc.extract_tax_information treeNoTaxes).map XmlProc.toTaxLine) = [] ∧
    XmlProc.parse_invoice_for_structure treeNoTaxes ("f.xml") ("z.zip") = [] := by
  have h1 : XmlProc.extract_tax_information treeNoTaxes = [] := by decide
  constructor
  · rw [h1]
    simp [XmlProc.separate_taxes_by_type, XmlProc.consolidateGo]
  · unfold XmlProc.parse_invoice_for_structure
    rw [h1]
    simp [XmlProc.separate_taxes_by_type, XmlProc.consolidateGo]

/-- Helper for C5: the per-group row loop of `app.py` yields one row per
group when it succeeds. -/
theorem rowsLoop_length (h : App.Header) :
    ∀ (gs : List (String × ℚ × ℚ)) (rs : List App.AppRow),
      App.rowsLoop h gs = some rs → rs.length = gs.length := by
  intro gs
  induction gs with
  | nil =>
    intro rs hr
    simp only [App.rowsLoop, Option.some.injEq] at hr
    rw [← hr]
    rfl
  | cons g gs2 ih =>
    intro rs hr
    obtain ⟨desc, ta, ba⟩ := g
    simp only [App.rowsLoop] at hr
    cases hc : App.classify_tax_status ("Impuesto") (App.percent_from_description desc) ta ba with
    | none => rw [hc] at hr; simp at hr
    | some estado =>
      rw [hc] at hr
      cases hr2 : App.rowsLoop h gs2 with
      | none => rw [hr2] at hr; simp at hr
      | some rs2 =>
        rw [hr2] at hr
        simp only [Option.map] at hr
        simp only [Option.some.injEq] at hr
        rw [← hr]
        simp [ih rs2 hr2]

/-- C5 amended: the placeholder behaviour belongs to the root `app.py`
pipeline only.  There, an empty group list yields exactly the one
placeholder row `('Sin Impuestos', 'EXCLUIDO', 0, 0)` and a non-empty group
list (whose description-embedded percents parse) yields one row per group;
the refactored `XMLProcessor.parse_invoice_for_structure` emits no
placeholder — an empty consolidator output yields zero rows. -/
theorem C5_placeholder_behaviour :
    (∀ (root : XTree) (fn zn : String),
      XmlProc.separate_taxes_by_type
        ((XmlProc.extract_tax_information root).map XmlProc.toTaxLine) = [] →
      XmlProc.parse_invoice_for_structure root fn zn = []) ∧
    (∀ h : App.Header,
      App.assemble_rows h [] =
        some [App.buildRow h ("Sin Impuestos") ("EXCLUIDO") 0 0]) ∧
    (∀ (h : App.Header) (gs : List (String × ℚ × ℚ)) (rs : List App.AppRow),
      App.assemble_rows h gs = some rs → gs ≠ [] → rs.length = gs.length) := by
  refine ⟨?_, ?_, ?_⟩
  · intro root fn zn hsep
    unfold XmlProc.parse_invoice_for_structure
    simp only [hsep, List.map_nil]
  · intro h
    rfl
  · intro h gs rs hrs hne
    unfold App.assemble_rows at hrs
    cases hr0 : App.rowsLoop h gs with
    | none => rw [hr0] at hrs; simp at hrs
    | some rs0 =>
      rw [hr0] at hrs
      cases rs0 with
      | nil =>
        exfalso
        have := rowsLoop_length h gs [] hr0
        simp only [List.length_nil] at this
        exact hne (List.length_eq_zero.mp this.symm)
      | cons r rs1 =>
        simp only [Option.some.injEq] at hrs
        rw [← hrs]
        exact rowsLoop_length h gs (r :: rs1) hr0

/-- C5 witness: the amended statement applied to concrete inputs — the
no-tax document yields zero `XMLProcessor` rows, the empty group list
yields exactly the placeholder row, and a one-group list yields one row. -/
theorem C5_witness :
    XmlProc.parse_invoice_for_structure treeNoTaxes ("a.xml") ("b.zip") = [] ∧
    App.assemble_rows hdr0 [] =
      some [App.buildRow hdr0 ("Sin Impuestos") ("EXCLUIDO") 0 0] ∧
    App.assemble_rows hdr0 [(("X"), (0 : ℚ), (0 : ℚ))] =
      some [App.buildRow hdr0 ("X") ("EXCLUIDO") 0 0] ∧
    [App.buildRow hdr0 ("X") ("EXCLUIDO") 0 0].length =
      [(("X"), (0 : ℚ), (0 : ℚ))].length := by
  have hth := C5_placeholder_behaviour
  have hp : App.percent_from_description ("X") = ("0") := by decide
  have hf : pyFloat ("0") = some 0 := by
    have hd : ("0" : String).data = [('0' : Char)] := rfl
    have h48 : ('0' : Char).toNat = 48 := by decide
    simp [pyFloat, pyFloatCore, hd, digitsToNat, h48, List.takeWhile, List.dropWhile]
  have hc : App.classify_tax_status ("Impuesto") ("0") (0 : ℚ) (0 : ℚ) =
      some ("EXCLUIDO") := by
    simp [App.classify_tax_status, hf]
  have hr2 : round2 (0 : ℚ) = 0 := by
    norm_num [round2, rndHalfEven]
  have hassm : App.assemble_rows hdr0 [(("X"), (0 : ℚ), (0 : ℚ))] =
      some [App.buildRow hdr0 ("X") ("EXCLUIDO") 0 0] := by
    unfold App.assemble_rows App.rowsLoop
    rw [hp, hc]
    simp [hr2, App.rowsLoop]
  refine ⟨?_, hth.2.1 hdr0, hassm, ?_⟩
  · apply hth.1
    have h1 : XmlProc.extract_tax_information treeNoTaxes = [] := by decide
    rw [h1]
    simp [XmlProc.separate_taxes_by_type, XmlProc.consolidateGo]
  · exact hth.2.2 hdr0 _ _ hassm (by simp)
